import Mathlib

/-!
Shallow embedding of the atf test-execution core (action.go, teststep.go,
testrslt.go, testset.go) and verification of its evaluation and cascade
behaviour.

Modelling conventions:
* Go strings are Lean `String`; the `TestResult` string type is an abbrev.
* Pointer fields (`*Action`, slices of pointers) become `Option` / `List`
  values; `nil` is `none` / `[]`.
* The external process runner (`utils.Execute(script, args)`) is modelled by
  an explicit environment `Exec`: `run script args = (output, failed)` where
  `failed = true` corresponds to Go `err != nil`.  Execution functions also
  return the trace of `(script, args)` invocations handed to the runner, so
  that "which action object was executed" is observable.
* A Go `panic` (nil-pointer dereference, the explicit panic in
  `TestStep.Initialize`) is modelled by `Option`: `none` is the panic.
* The `disp` progress callback only produces log text and never influences
  control flow or state; its calls are dropped from the embedding.
-/

namespace Atf

/-- `TestResult` is a custom string type in Go (testrslt.go). -/
abbrev TestResult := String

/-- testrslt.go: the slice of valid test result values. -/
def ValidTestResults : List String :=
  ["UnknownResult", "Pass", "Fail", "XFail", "NotTested"]

/-- testrslt.go `IsValidTestResult`: linear scan of `ValidTestResults`. -/
def IsValidTestResult (val : String) : Bool :=
  ValidTestResults.any (fun v => v == val)

/-- The external process runner: Go `Execute(script, args)` returns
`(output, err)`; we keep the un-split argument string and model `err != nil`
as the `Bool` component. -/
structure Exec where
  run : String → String → String × Bool

/-- action.go `Action`: script, args, result, output, description and the two
classification flags. -/
structure Action where
  Script : String
  Args : String
  Result : TestResult
  Output : String
  Description : String
  Executable : Bool
  Manual : Bool
deriving Repr, DecidableEq

/-- action.go `Action.Init`: reset result to NotTested, clear both flags, then
set Executable when the script is non-empty (precedence), otherwise Manual
when the description is non-empty. -/
def Action.Init (a : Action) : Action :=
  let a := { a with Result := "NotTested", Executable := false, Manual := false }
  if a.Script ≠ "" then
    { a with Executable := true, Manual := false }
  else if a.Description ≠ "" then
    { a with Executable := false, Manual := true }
  else
    a

/-- action.go `Action.IsExecutable` (accessor used by testrslt.go). -/
def Action.IsExecutable (a : Action) : Bool := a.Executable

/-- action.go `Action.IsManual`. -/
def Action.IsManual (a : Action) : Bool := a.Manual

/-- action.go `Action.Execute`: result is first reset to NotTested; an
executable action invokes the runner and maps `err != nil` to Fail, otherwise
Pass; a non-executable action copies the description into the output.  The
second component is the runner-invocation trace. -/
def Action.Execute (ex : Exec) (a : Action) : Action × List (String × String) :=
  let a := { a with Result := "NotTested" }
  if a.Executable then
    let (out, failed) := ex.run a.Script a.Args
    ({ a with Output := out, Result := if failed then "Fail" else "Pass" },
      [(a.Script, a.Args)])
  else
    ({ a with Output := a.Description }, [])

/-- action.go `CreateAction`: automated (executable) action. -/
def CreateAction (script args : String) : Action :=
  ⟨script, args, "NotTested", "", "", true, false⟩

/-- action.go `CreateManualAction`. -/
def CreateManualAction (descr : String) : Action :=
  ⟨"", "", "NotTested", "", descr, false, true⟩

/-- action.go `CreateEmptyAction`: note the non-empty `"No action"` script with
both flags reset. -/
def CreateEmptyAction : Action :=
  ⟨"No action", "", "NotTested", "", "", false, false⟩

/-- teststep.go `TestStep`: name, expected result, status, and the (pointer,
hence optional) action. -/
structure TestStep where
  Name : String
  Expected : TestResult
  Status : TestResult
  Action : Option Atf.Action
deriving Repr, DecidableEq

/-- teststep.go `TestStep.Initialize`: panics (`none`) when the action is
missing; otherwise re-inits the action, resets the status to NotTested and
defaults an empty expected status to Pass for executable actions. -/
def TestStep.Initialize (ts : TestStep) : Option TestStep :=
  match ts.Action with
  | none => none
  | some a =>
    let a := a.Init
    let ts := { ts with Action := some a, Status := "NotTested" }
    if a.Executable && ts.Expected == "" then
      some { ts with Expected := "Pass" }
    else
      some ts

/-- teststep.go `TestStep.Execute`: run the action when present and executable,
then derive the step status from the expected status; with a `nil` action the
status-evaluation switch dereferences `ts.Action.Result` and panics (`none`)
in the Pass and XFail branches. -/
def TestStep.Execute (ex : Exec) (ts : TestStep) :
    Option (TestStep × List (String × String)) :=
  let (ts, tr) :=
    match ts.Action with
    | some a =>
      if a.Executable then
        let (a', tr) := a.Execute ex
        ({ ts with Action := some a' }, tr)
      else
        (ts, [])
    | none => (ts, [])
  if ts.Expected == "Pass" then
    match ts.Action with
    | some a =>
      some ({ ts with Status := if a.Result == "Pass" then "Pass" else "Fail" }, tr)
    | none => none
  else if ts.Expected == "XFail" then
    match ts.Action with
    | some a =>
      some ({ ts with Status := if a.Result == "Pass" then "Fail" else "Pass" }, tr)
    | none => none
  else
    some ({ ts with Status := "NotTested" }, tr)

/-- teststep.go `CreateTestStep` (the `descr` argument is unused in Go). -/
def CreateTestStep (name : String) (_descr : String)
    (expected status : TestResult) (act : Option Atf.Action) : TestStep :=
  ⟨name, expected, status, act⟩

/-- testrslt.go `TestCase`: setup/cleanup actions, expected result, status and
the list of steps. -/
structure TestCase where
  Name : String
  Setup : Option Atf.Action
  Cleanup : Option Atf.Action
  Expected : TestResult
  Status : TestResult
  Steps : List TestStep
  Description : String
deriving Repr, DecidableEq

/-- The step loop of testrslt.go `TestCase.Initialize`: initialize the steps
in order; a step with a missing action panics (`none`). -/
def initSteps : List TestStep → Option (List TestStep)
  | [] => some []
  | st :: rest =>
    match st.Initialize with
    | none => none
    | some st' =>
      match initSteps rest with
      | none => none
      | some rest' => some (st' :: rest')

/-- testrslt.go `TestCase.Initialize`: default missing setup/cleanup to the
empty action, then initialize every step (a step with a missing action
panics, propagated as `none`). -/
def TestCase.Initialize (tc : TestCase) : Option TestCase :=
  let tc :=
    match tc.Setup with
    | none => { tc with Setup := some CreateEmptyAction }
    | some _ => tc
  let tc :=
    match tc.Cleanup with
    | none => { tc with Cleanup := some CreateEmptyAction }
    | some _ => tc
  (initSteps tc.Steps).map fun stps => { tc with Steps := stps }

/-- testrslt.go `TestCase.cleanupAfterCaseSetupFail`: set the case status to
Fail and every step status to NotTested (the returned text is log-only and
dropped). -/
def TestCase.cleanupAfterCaseSetupFail (tc : TestCase) : TestCase :=
  { tc with Status := "Fail",
            Steps := tc.Steps.map fun st => { st with Status := "NotTested" } }

/-- The step loop of testrslt.go `evaluateExpectedPass`: `none` models the
early `return` on the first Fail step, otherwise the final NotTested count is
returned. -/
def passLoop : List TestStep → Nat → Option Nat
  | [], acc => some acc
  | st :: rest, acc =>
    if st.Status == "Fail" then none
    else if st.Status == "NotTested" then passLoop rest (acc + 1)
    else passLoop rest acc

/-- The step loop of testrslt.go `evaluateExpectedFail`: early return on the
first Pass step, otherwise the NotTested count. -/
def xfailLoop : List TestStep → Nat → Option Nat
  | [], acc => some acc
  | st :: rest, acc =>
    if st.Status == "Pass" then none
    else if st.Status == "NotTested" then xfailLoop rest (acc + 1)
    else xfailLoop rest acc

/-- testrslt.go `TestCase.evaluateExpectedPass`: a failed setup or cleanup
fails the case; a failed step fails the case; all steps NotTested gives
NotTested; otherwise the status (Pass, set by `evaluate`) is kept. -/
def TestCase.evaluateExpectedPass (tc : TestCase) : TestCase :=
  if (match tc.Setup with | some s => s.Result == "Fail" | none => false) then
    { tc with Status := "Fail" }
  else if (match tc.Cleanup with | some c => c.Result == "Fail" | none => false) then
    { tc with Status := "Fail" }
  else
    match passLoop tc.Steps 0 with
    | none => { tc with Status := "Fail" }
    | some n =>
      if n == tc.Steps.length then { tc with Status := "NotTested" } else tc

/-- testrslt.go `TestCase.evaluateExpectedFail`: a passed setup or cleanup
fails the case; a passed step fails the case; all steps NotTested gives
NotTested; otherwise the status (Pass) is kept. -/
def TestCase.evaluateExpectedFail (tc : TestCase) : TestCase :=
  if (match tc.Setup with | some s => s.Result == "Pass" | none => false) then
    { tc with Status := "Fail" }
  else if (match tc.Cleanup with | some c => c.Result == "Pass" | none => false) then
    { tc with Status := "Fail" }
  else
    match xfailLoop tc.Steps 0 with
    | none => { tc with Status := "Fail" }
    | some n =>
      if n == tc.Steps.length then { tc with Status := "NotTested" } else tc

/-- testrslt.go `TestCase.evaluate`: status is first set to Pass, then the
expected status selects the policy; anything but Pass/XFail gives
NotTested. -/
def TestCase.evaluate (tc : TestCase) : TestCase :=
  let tc := { tc with Status := "Pass" }
  if tc.Expected == "Pass" then tc.evaluateExpectedPass
  else if tc.Expected == "XFail" then tc.evaluateExpectedFail
  else { tc with Status := "NotTested" }

/-- The step loop of testrslt.go `TestCase.Execute`: execute the steps in
order, threading the runner trace; a panicking step aborts (`none`). -/
def execSteps (ex : Exec) : List TestStep → Option (List TestStep × List (String × String))
  | [] => some ([], [])
  | st :: rest =>
    match st.Execute ex with
    | none => none
    | some (st', tr) =>
      match execSteps ex rest with
      | none => none
      | some (rest', tr') => some (st' :: rest', tr ++ tr')

/-- testrslt.go `TestCase.Execute`: run setup when executable, on a Fail
result apply `cleanupAfterCaseSetupFail` (and, as in the source, continue);
run every step; in the cleanup phase, when the cleanup action is executable,
the source executes `tc.Setup.Execute()` (not the cleanup); finally
`evaluate`. -/
def TestCase.Execute (ex : Exec) (tc : TestCase) :
    Option (TestCase × List (String × String)) :=
  let (tc, tr₁) :=
    match tc.Setup with
    | some s =>
      if s.IsExecutable then
        let (s', tr) := s.Execute ex
        let tc := { tc with Setup := some s' }
        if s'.Result == "Fail" then (tc.cleanupAfterCaseSetupFail, tr) else (tc, tr)
      else (tc, [])
    | none => (tc, [])
  match execSteps ex tc.Steps with
  | none => none
  | some (stps, tr₂) =>
    let tc := { tc with Steps := stps }
    let (tc, tr₃) :=
      match tc.Cleanup with
      | some c =>
        if c.IsExecutable then
          match tc.Setup with
          | some s =>
            let (s', tr) := s.Execute ex
            ({ tc with Setup := some s' }, tr)
          | none => (tc, [])
        else (tc, [])
      | none => (tc, [])
    some (tc.evaluate, tr₁ ++ tr₂ ++ tr₃)

/-- sut.go `SysUnderTest` (opaque to the execution engine). -/
structure SysUnderTest where
  Name : String
  Systype : String
  Version : String
  Description : String
  IPaddr : String
deriving Repr, DecidableEq

/-- testset.go `TestSet`. -/
structure TestSet where
  Name : String
  Description : String
  Sut : Option SysUnderTest
  Setup : Option Atf.Action
  Cleanup : Option Atf.Action
  Cases : List TestCase
deriving Repr, DecidableEq

/-- The case loop of testset.go `TestSet.Initialize`. -/
def initCases : List TestCase → Option (List TestCase)
  | [] => some []
  | tc :: rest =>
    match tc.Initialize with
    | none => none
    | some tc' =>
      match initCases rest with
      | none => none
      | some rest' => some (tc' :: rest')

/-- testset.go `TestSet.Initialize`: default missing setup/cleanup to the
empty action, initialize every case. -/
def TestSet.Initialize (ts : TestSet) : Option TestSet :=
  let ts :=
    match ts.Setup with
    | none => { ts with Setup := some CreateEmptyAction }
    | some _ => ts
  let ts :=
    match ts.Cleanup with
    | none => { ts with Cleanup := some CreateEmptyAction }
    | some _ => ts
  (initCases ts.Cases).map fun cs => { ts with Cases := cs }

/-- testset.go `TestSet.CleanupAfterTsetSetupFail`: mark every step of every
case NotTested (the returned text is log-only and dropped). -/
def TestSet.CleanupAfterTsetSetupFail (ts : TestSet) : TestSet :=
  { ts with Cases := ts.Cases.map fun tc =>
      { tc with Steps := tc.Steps.map fun st => { st with Status := "NotTested" } } }

/-- The case loop of testset.go `TestSet.Execute`. -/
def execCases (ex : Exec) : List TestCase → Option (List TestCase × List (String × String))
  | [] => some ([], [])
  | tc :: rest =>
    match tc.Execute ex with
    | none => none
    | some (tc', tr) =>
      match execCases ex rest with
      | none => none
      | some (rest', tr') => some (tc' :: rest', tr ++ tr')

/-- testset.go `TestSet.Execute`: run setup when executable, on a Fail result
apply `CleanupAfterTsetSetupFail` (and, as in the source, continue); execute
every case; run cleanup when executable. -/
def TestSet.Execute (ex : Exec) (ts : TestSet) :
    Option (TestSet × List (String × String)) :=
  let (ts, tr₁) :=
    match ts.Setup with
    | some s =>
      if s.Executable then
        let (s', tr) := s.Execute ex
        let ts := { ts with Setup := some s' }
        if s'.Result == "Fail" then (ts.CleanupAfterTsetSetupFail, tr) else (ts, tr)
      else (ts, [])
    | none => (ts, [])
  match execCases ex ts.Cases with
  | none => none
  | some (cs, tr₂) =>
    let ts := { ts with Cases := cs }
    let (ts, tr₃) :=
      match ts.Cleanup with
      | some c =>
        if c.Executable then
          let (c', tr) := c.Execute ex
          ({ ts with Cleanup := some c' }, tr)
        else (ts, [])
      | none => (ts, [])
    some (ts, tr₁ ++ tr₂ ++ tr₃)

/-! ### Helper lemmas about `Action.Init` -/

lemma Action.init_script (a : Action) : a.Init.Script = a.Script := by
  unfold Action.Init
  by_cases hs : a.Script = "" <;> by_cases hd : a.Description = "" <;>
    simp [hs, hd]

lemma Action.init_description (a : Action) : a.Init.Description = a.Description := by
  unfold Action.Init
  by_cases hs : a.Script = "" <;> by_cases hd : a.Description = "" <;>
    simp [hs, hd]

lemma Action.init_result (a : Action) : a.Init.Result = "NotTested" := by
  unfold Action.Init
  by_cases hs : a.Script = "" <;> by_cases hd : a.Description = "" <;>
    simp [hs, hd]

lemma Action.init_flags (a : Action) :
    (a.Script ≠ "" → a.Init.Executable = true ∧ a.Init.Manual = false) ∧
    (a.Script = "" → a.Description ≠ "" →
      a.Init.Executable = false ∧ a.Init.Manual = true) ∧
    (a.Script = "" → a.Description = "" →
      a.Init.Executable = false ∧ a.Init.Manual = false) := by
  unfold Action.Init
  by_cases hs : a.Script = "" <;> by_cases hd : a.Description = "" <;>
    simp [hs, hd]

lemma Action.init_not_both (a : Action) :
    ¬(a.Init.Executable = true ∧ a.Init.Manual = true) := by
  unfold Action.Init
  by_cases hs : a.Script = "" <;> by_cases hd : a.Description = "" <;>
    simp [hs, hd]

lemma Action.init_idem (a : Action) : a.Init.Init = a.Init := by
  unfold Action.Init
  by_cases hs : a.Script = "" <;> by_cases hd : a.Description = "" <;>
    simp [hs, hd]

/-! ### C7 / C9 / C6 -/

/-- C7: classification via `Init` is an idempotent pure function of the
`Script` and `Description` fields: a non-empty script gives an Executable
(non-Manual) action, else a non-empty description gives a Manual
(non-Executable) action, else both flags are false; the flags are never both
true after `Init`, and `Init` run twice equals `Init` run once. -/
theorem action_init_classification (a : Action) :
    ¬(a.Init.Executable = true ∧ a.Init.Manual = true) ∧
    a.Init.Init = a.Init ∧
    (a.Script ≠ "" → a.Init.Executable = true ∧ a.Init.Manual = false) ∧
    (a.Script = "" → a.Description ≠ "" →
      a.Init.Executable = false ∧ a.Init.Manual = true) ∧
    (a.Script = "" → a.Description = "" →
      a.Init.Executable = false ∧ a.Init.Manual = false) :=
  ⟨a.init_not_both, a.init_idem, (a.init_flags).1, (a.init_flags).2.1,
    (a.init_flags).2.2⟩

/-- Witness for C7 at a deserialized-style action with a script. -/
theorem action_init_classification_witness :
    ¬((Action.Init ⟨"run.sh", "-v", "", "", "", false, false⟩).Executable = true ∧
      (Action.Init ⟨"run.sh", "-v", "", "", "", false, false⟩).Manual = true) ∧
    (Action.Init ⟨"run.sh", "-v", "", "", "", false, false⟩).Init =
      Action.Init ⟨"run.sh", "-v", "", "", "", false, false⟩ ∧
    (("run.sh" : String) ≠ "" →
      (Action.Init ⟨"run.sh", "-v", "", "", "", false, false⟩).Executable = true ∧
      (Action.Init ⟨"run.sh", "-v", "", "", "", false, false⟩).Manual = false) ∧
    (("run.sh" : String) = "" → ("" : String) ≠ "" →
      (Action.Init ⟨"run.sh", "-v", "", "", "", false, false⟩).Executable = false ∧
      (Action.Init ⟨"run.sh", "-v", "", "", "", false, false⟩).Manual = true) ∧
    (("run.sh" : String) = "" → ("" : String) = "" →
      (Action.Init ⟨"run.sh", "-v", "", "", "", false, false⟩).Executable = false ∧
      (Action.Init ⟨"run.sh", "-v", "", "", "", false, false⟩).Manual = false) :=
  action_init_classification ⟨"run.sh", "-v", "", "", "", false, false⟩

/-- C9: the factory empty action carries the non-empty script `"No action"`
with both flags reset, so `Init` reclassifies it as Executable. -/
theorem createEmptyAction_reclassified_executable :
    CreateEmptyAction.Script = "No action" ∧
    CreateEmptyAction.Script ≠ "" ∧
    CreateEmptyAction.Executable = false ∧
    CreateEmptyAction.Manual = false ∧
    CreateEmptyAction.Init.Executable = true ∧
    CreateEmptyAction.Init.Manual = false := by
  refine ⟨rfl, ?_, rfl, rfl, ?_, ?_⟩ <;> decide

/-- A runner in which every invocation succeeds. -/
def exAllPass : Exec := ⟨fun _ _ => ("", false)⟩

/-- A manual action whose stored result is Pass before `Execute`. -/
def manualPassAction : Action := ⟨"", "", "Pass", "", "do it by hand", false, true⟩

/-- C6 counterexample: executing a Manual action whose prior Result is Pass
does not leave the result unchanged — `Execute` resets it to NotTested. -/
theorem manual_execute_result_changed :
    manualPassAction.Manual = true ∧
    manualPassAction.Result = "Pass" ∧
    (manualPassAction.Execute exAllPass).1.Result = "NotTested" ∧
    (manualPassAction.Execute exAllPass).1.Result ≠ manualPassAction.Result := by
  refine ⟨rfl, rfl, rfl, ?_⟩
  decide

/-- C6 amended: for a Manual (hence non-Executable) action, `Execute` copies
the description into the output and resets the result to NotTested,
regardless of the prior result. -/
theorem manual_execute_spec (ex : Exec) (a : Action)
    (_hm : a.Manual = true) (hx : a.Executable = false) :
    (a.Execute ex).1.Output = a.Description ∧
    (a.Execute ex).1.Result = "NotTested" := by
  unfold Action.Execute
  simp [hx]

/-- Witness for the amended C6 at a factory-built manual action. -/
theorem manual_execute_spec_witness :
    (CreateManualAction "inspect the LEDs").Manual = true ∧
    (CreateManualAction "inspect the LEDs").Executable = false ∧
    ((CreateManualAction "inspect the LEDs").Execute exAllPass).1.Output =
      (CreateManualAction "inspect the LEDs").Description ∧
    ((CreateManualAction "inspect the LEDs").Execute exAllPass).1.Result =
      "NotTested" :=
  ⟨rfl, rfl,
    (manual_execute_spec exAllPass (CreateManualAction "inspect the LEDs") rfl rfl).1,
    (manual_execute_spec exAllPass (CreateManualAction "inspect the LEDs") rfl rfl).2⟩

/-! ### C3 / C10: step execution -/

lemma step_execute_some (ex : Exec) (ts : TestStep) (a : Action)
    (h : ts.Action = some a) :
    ts.Execute ex =
      some ({ ts with
              Action := some (if a.Executable then (a.Execute ex).1 else a),
              Status :=
                if ts.Expected == "Pass" then
                  (if (if a.Executable then (a.Execute ex).1 else a).Result == "Pass"
                   then "Pass" else "Fail")
                else if ts.Expected == "XFail" then
                  (if (if a.Executable then (a.Execute ex).1 else a).Result == "Pass"
                   then "Fail" else "Pass")
                else "NotTested" },
            if a.Executable then (a.Execute ex).2 else []) := by
  unfold TestStep.Execute
  rw [h]
  by_cases hex : a.Executable <;>
    by_cases h1 : ts.Expected == "Pass" <;>
    by_cases h2 : ts.Expected == "XFail" <;>
      simp [hex, h1, h2, h, Action.Execute]

/-- C3: after `Execute` on a step with an action, Expected=Pass gives
Status=Pass exactly when the (executed) action's result is Pass and Fail
otherwise; Expected=XFail gives Status=Pass exactly when the result is not
Pass and Fail otherwise; any other Expected gives Status=NotTested. -/
theorem step_execute_status_policy (ex : Exec) (ts : TestStep) (a : Action)
    (h : ts.Action = some a) :
    ∃ ts' tr, ts.Execute ex = some (ts', tr) ∧ ∃ a', ts'.Action = some a' ∧
      (ts.Expected = "Pass" →
        (ts'.Status = "Pass" ↔ a'.Result = "Pass") ∧
        (ts'.Status = "Pass" ∨ ts'.Status = "Fail")) ∧
      (ts.Expected = "XFail" →
        (ts'.Status = "Pass" ↔ a'.Result ≠ "Pass") ∧
        (ts'.Status = "Pass" ∨ ts'.Status = "Fail")) ∧
      (ts.Expected ≠ "Pass" → ts.Expected ≠ "XFail" → ts'.Status = "NotTested") := by
  refine ⟨_, _, step_execute_some ex ts a h, _, rfl, ?_, ?_, ?_⟩
  · intro hp
    by_cases hr : (if a.Executable then (a.Execute ex).1 else a).Result = "Pass" <;>
      simp [hp, hr]
  · intro hx
    by_cases hp : ts.Expected = "Pass"
    · rw [hp] at hx; exact absurd hx (by decide)
    · by_cases hr : (if a.Executable then (a.Execute ex).1 else a).Result = "Pass" <;>
        simp [hx, hp, hr]
  · intro h1 h2
    simp [h1, h2]

/-- A step with an executable action expected to pass, used as a witness. -/
def stepW : TestStep := ⟨"w", "Pass", "NotTested", some (CreateAction "w.sh" "")⟩

/-- Witness for C3 at a concrete step under the all-pass runner. -/
theorem step_execute_status_policy_witness :
    stepW.Action = some (CreateAction "w.sh" "") ∧
    (∃ ts' tr, stepW.Execute exAllPass = some (ts', tr) ∧
      ∃ a', ts'.Action = some a' ∧
        (stepW.Expected = "Pass" →
          (ts'.Status = "Pass" ↔ a'.Result = "Pass") ∧
          (ts'.Status = "Pass" ∨ ts'.Status = "Fail")) ∧
        (stepW.Expected = "XFail" →
          (ts'.Status = "Pass" ↔ a'.Result ≠ "Pass") ∧
          (ts'.Status = "Pass" ∨ ts'.Status = "Fail")) ∧
        (stepW.Expected ≠ "Pass" → stepW.Expected ≠ "XFail" →
          ts'.Status = "NotTested")) :=
  ⟨rfl, step_execute_status_policy exAllPass stepW (CreateAction "w.sh" "") rfl⟩

/-- C10: on a step whose action is missing, `Execute` hits the nil
dereference (`none`) exactly when Expected is Pass or XFail; any other
Expected value completes. -/
theorem step_execute_nil_action_panics (ex : Exec) (ts : TestStep)
    (h : ts.Action = none) :
    ts.Execute ex = none ↔ (ts.Expected = "Pass" ∨ ts.Expected = "XFail") := by
  unfold TestStep.Execute
  rw [h]
  by_cases h1 : ts.Expected = "Pass" <;> by_cases h2 : ts.Expected = "XFail" <;>
    simp [h1, h2, h]

/-- An action-less step expecting Pass, used as a witness. -/
def stepNoAction : TestStep := ⟨"n", "Pass", "NotTested", none⟩

/-- Witness for C10: the action-less Pass-expecting step panics. -/
theorem step_execute_nil_action_panics_witness :
    stepNoAction.Action = none ∧
    (stepNoAction.Execute exAllPass = none ↔
      (stepNoAction.Expected = "Pass" ∨ stepNoAction.Expected = "XFail")) :=
  ⟨rfl, step_execute_nil_action_panics exAllPass stepNoAction rfl⟩

/-! ### C2: the case evaluation algorithm -/

lemma passLoop_eq (l : List TestStep) (acc : Nat) :
    passLoop l acc =
      if l.any (fun st => st.Status == "Fail") then none
      else some (acc + l.countP (fun st => st.Status == "NotTested")) := by
  induction l generalizing acc with
  | nil => simp [passLoop]
  | cons st rest ih =>
    by_cases hF : st.Status = "Fail"
    · simp [passLoop, hF]
    · by_cases hN : st.Status = "NotTested"
      · have harith : acc + 1 + rest.countP (fun st => st.Status == "NotTested")
            = acc + (rest.countP (fun st => st.Status == "NotTested") + 1) := by omega
        simp [passLoop, hF, hN, ih, List.countP_cons, harith]
      · simp [passLoop, hF, hN, ih, List.countP_cons]

lemma xfailLoop_eq (l : List TestStep) (acc : Nat) :
    xfailLoop l acc =
      if l.any (fun st => st.Status == "Pass") then none
      else some (acc + l.countP (fun st => st.Status == "NotTested")) := by
  induction l generalizing acc with
  | nil => simp [xfailLoop]
  | cons st rest ih =>
    by_cases hF : st.Status = "Pass"
    · simp [xfailLoop, hF]
    · by_cases hN : st.Status = "NotTested"
      · have harith : acc + 1 + rest.countP (fun st => st.Status == "NotTested")
            = acc + (rest.countP (fun st => st.Status == "NotTested") + 1) := by omega
        simp [xfailLoop, hF, hN, ih, List.countP_cons, harith]
      · simp [xfailLoop, hF, hN, ih, List.countP_cons]

lemma evaluateExpectedPass_status (tc : TestCase) (s c : Action)
    (hs : tc.Setup = some s) (hc : tc.Cleanup = some c) :
    (tc.evaluateExpectedPass).Status =
      if s.Result == "Fail" || c.Result == "Fail" ||
          tc.Steps.any (fun st => st.Status == "Fail") then "Fail"
      else if tc.Steps.all (fun st => st.Status == "NotTested") then "NotTested"
      else tc.Status := by
  unfold TestCase.evaluateExpectedPass
  rw [hs, hc, passLoop_eq]
  by_cases h1 : s.Result = "Fail"
  · simp [h1]
  · by_cases h2 : c.Result = "Fail"
    · simp [h1, h2]
    · by_cases h3 : tc.Steps.any (fun st => st.Status == "Fail")
      · simp [h1, h2, h3]
      · by_cases h4 : tc.Steps.countP (fun st => st.Status == "NotTested") = tc.Steps.length
        · have hall : tc.Steps.all (fun st => st.Status == "NotTested") = true := by
            rw [List.all_eq_true]
            exact List.countP_eq_length.1 h4
          simp [h1, h2, h3, h4, hall]
        · have hall : tc.Steps.all (fun st => st.Status == "NotTested") = false := by
            rw [Bool.eq_false_iff]
            intro hcon
            exact h4 (List.countP_eq_length.2 (List.all_eq_true.1 hcon))
          simp [h1, h2, h3, h4, hall]

lemma evaluateExpectedFail_status (tc : TestCase) (s c : Action)
    (hs : tc.Setup = some s) (hc : tc.Cleanup = some c) :
    (tc.evaluateExpectedFail).Status =
      if s.Result == "Pass" || c.Result == "Pass" ||
          tc.Steps.any (fun st => st.Status == "Pass") then "Fail"
      else if tc.Steps.all (fun st => st.Status == "NotTested") then "NotTested"
      else tc.Status := by
  unfold TestCase.evaluateExpectedFail
  rw [hs, hc, xfailLoop_eq]
  by_cases h1 : s.Result = "Pass"
  · simp [h1]
  · by_cases h2 : c.Result = "Pass"
    · simp [h1, h2]
    · by_cases h3 : tc.Steps.any (fun st => st.Status == "Pass")
      · simp [h1, h2, h3]
      · by_cases h4 : tc.Steps.countP (fun st => st.Status == "NotTested") = tc.Steps.length
        · have hall : tc.Steps.all (fun st => st.Status == "NotTested") = true := by
            rw [List.all_eq_true]
            exact List.countP_eq_length.1 h4
          simp [h1, h2, h3, h4, hall]
        · have hall : tc.Steps.all (fun st => st.Status == "NotTested") = false := by
            rw [Bool.eq_false_iff]
            intro hcon
            exact h4 (List.countP_eq_length.2 (List.all_eq_true.1 hcon))
          simp [h1, h2, h3, h4, hall]

/-- The three-policy evaluation algorithm exactly as the spec words it:
Expected=Pass fails on a failed setup, cleanup or step, is NotTested when
every step is NotTested, and passes otherwise; Expected=XFail is the same
with the pass/fail conditions inverted; anything else is NotTested. -/
def specEvalStatus (expected setupR cleanupR : TestResult)
    (steps : List TestStep) : TestResult :=
  if expected == "Pass" then
    if setupR == "Fail" || cleanupR == "Fail" ||
        steps.any (fun st => st.Status == "Fail") then "Fail"
    else if steps.all (fun st => st.Status == "NotTested") then "NotTested"
    else "Pass"
  else if expected == "XFail" then
    if setupR == "Pass" || cleanupR == "Pass" ||
        steps.any (fun st => st.Status == "Pass") then "Fail"
    else if steps.all (fun st => st.Status == "NotTested") then "NotTested"
    else "Pass"
  else "NotTested"

lemma evaluate_def (tc : TestCase) :
    tc.evaluate =
      if tc.Expected == "Pass" then
        TestCase.evaluateExpectedPass { tc with Status := "Pass" }
      else if tc.Expected == "XFail" then
        TestCase.evaluateExpectedFail { tc with Status := "Pass" }
      else { tc with Status := "NotTested" } := rfl

/-- C2: after execution, `evaluate` computes the case status by exactly the
three-policy algorithm of the spec. -/
theorem evaluate_matches_spec (tc : TestCase) (s c : Action)
    (hs : tc.Setup = some s) (hc : tc.Cleanup = some c) :
    (tc.evaluate).Status = specEvalStatus tc.Expected s.Result c.Result tc.Steps := by
  rw [evaluate_def]
  unfold specEvalStatus
  set tc2 : TestCase := { tc with Status := "Pass" } with htc2
  have hs2 : tc2.Setup = some s := hs
  have hc2 : tc2.Cleanup = some c := hc
  have hP := evaluateExpectedPass_status tc2 s c hs2 hc2
  have hX := evaluateExpectedFail_status tc2 s c hs2 hc2
  have hSteps : tc2.Steps = tc.Steps := rfl
  have hStatus : tc2.Status = "Pass" := rfl
  by_cases h1 : tc.Expected = "Pass"
  · simp [h1, hP, hSteps, hStatus]
  · by_cases h2 : tc.Expected = "XFail"
    · simp [h1, h2, hX, hSteps, hStatus]
    · simp [h1, h2]

/-- A concrete executed case: setup and cleanup passed, its only step
passed, expected result XFail. -/
def tcEvalW : TestCase :=
  ⟨"w2", some ⟨"s.sh", "", "Pass", "", "", true, false⟩,
    some ⟨"c.sh", "", "Pass", "", "", true, false⟩,
    "XFail", "", [⟨"st", "Pass", "Pass", none⟩], ""⟩

/-- Witness for C2 at a concrete executed case. -/
theorem evaluate_matches_spec_witness :
    tcEvalW.Setup = some ⟨"s.sh", "", "Pass", "", "", true, false⟩ ∧
    tcEvalW.Cleanup = some ⟨"c.sh", "", "Pass", "", "", true, false⟩ ∧
    (tcEvalW.evaluate).Status =
      specEvalStatus tcEvalW.Expected "Pass" "Pass" tcEvalW.Steps :=
  ⟨rfl, rfl,
    evaluate_matches_spec tcEvalW ⟨"s.sh", "", "Pass", "", "", true, false⟩
      ⟨"c.sh", "", "Pass", "", "", true, false⟩ rfl rfl⟩

/-! ### C8: idempotence of normalization -/

lemma step_initialize_idem (st st' : TestStep)
    (h : st.Initialize = some st') : st'.Initialize = some st' := by
  unfold TestStep.Initialize at h ⊢
  cases hA : st.Action with
  | none => simp [hA] at h
  | some a =>
    rw [hA] at h
    simp only [] at h
    by_cases hgate : (a.Init.Executable && (st.Expected == "")) = true
    · simp only [hgate, if_true] at h
      injection h with h
      subst h
      simp [Action.init_idem]
    · simp only [hgate, if_false, Bool.not_eq_true] at h
      rw [Bool.not_eq_true] at hgate
      injection h with h
      subst h
      simp [Action.init_idem, hgate]

lemma initSteps_idem :
    ∀ (l l' : List TestStep), initSteps l = some l' → initSteps l' = some l' := by
  intro l
  induction l with
  | nil =>
    intro l' h
    simp [initSteps] at h
    subst h
    simp [initSteps]
  | cons st rest ih =>
    intro l' h
    unfold initSteps at h
    cases hst : st.Initialize with
    | none => rw [hst] at h; simp at h
    | some st' =>
      rw [hst] at h
      cases hrest : initSteps rest with
      | none => rw [hrest] at h; simp at h
      | some rest' =>
        rw [hrest] at h
        simp only [Option.some.injEq] at h
        subst h
        simp [initSteps, step_initialize_idem st st' hst, ih rest' hrest]

lemma case_initialize_idem (tc tc' : TestCase)
    (h : tc.Initialize = some tc') : tc'.Initialize = some tc' := by
  unfold TestCase.Initialize at h ⊢
  cases hS : tc.Setup <;> cases hC : tc.Cleanup <;>
  · simp only [hS, hC] at h
    obtain ⟨stps, hm, rfl⟩ := Option.map_eq_some'.mp h
    simp only []
    simp [initSteps_idem _ _ hm]

lemma initCases_idem :
    ∀ (l l' : List TestCase), initCases l = some l' → initCases l' = some l' := by
  intro l
  induction l with
  | nil =>
    intro l' h
    simp [initCases] at h
    subst h
    simp [initCases]
  | cons tc rest ih =>
    intro l' h
    unfold initCases at h
    cases htc : tc.Initialize with
    | none => rw [htc] at h; simp at h
    | some tc' =>
      rw [htc] at h
      cases hrest : initCases rest with
      | none => rw [hrest] at h; simp at h
      | some rest' =>
        rw [hrest] at h
        simp only [Option.some.injEq] at h
        subst h
        simp [initCases, case_initialize_idem tc tc' htc, ih rest' hrest]

/-- C8: running `Initialize` on an already-initialized set reproduces the
set unchanged: no setup/cleanup is re-defaulted and no step field changes. -/
theorem testset_initialize_idem (ts ts' : TestSet)
    (h : ts.Initialize = some ts') : ts'.Initialize = some ts' := by
  unfold TestSet.Initialize at h ⊢
  cases hS : ts.Setup <;> cases hC : ts.Cleanup <;>
  · simp only [hS, hC] at h
    obtain ⟨cs, hm, rfl⟩ := Option.map_eq_some'.mp h
    simp only []
    simp [initCases_idem _ _ hm]

/-- A deserialized-style set: no setup/cleanup, one case with one executable
step lacking an expected status. -/
def tsetW : TestSet :=
  ⟨"s", "", none, none, none,
    [⟨"c", none, none, "Pass", "", [⟨"st", "", "", some (CreateAction "a.sh" "x")⟩], ""⟩]⟩

/-- The normalized form of `tsetW`. -/
def tsetW' : TestSet :=
  ⟨"s", "", none, some CreateEmptyAction, some CreateEmptyAction,
    [⟨"c", some CreateEmptyAction, some CreateEmptyAction, "Pass", "",
      [⟨"st", "Pass", "NotTested", some ⟨"a.sh", "x", "NotTested", "", "", true, false⟩⟩], ""⟩]⟩

/-- Witness for C8: initializing `tsetW` yields `tsetW'`, and a second
`Initialize` leaves `tsetW'` unchanged. -/
theorem testset_initialize_idem_witness :
    tsetW.Initialize = some tsetW' ∧ tsetW'.Initialize = some tsetW' :=
  ⟨rfl, testset_initialize_idem tsetW tsetW' rfl⟩

/-! ### C1 / C4 / C5: the cascade defects, evaluated at failing inputs -/

/-- A runner in which the script `"setup.sh"` fails and every other script
succeeds. -/
def exSetupFails : Exec :=
  ⟨fun s _ => if s == "setup.sh" then ("", true) else ("ok", false)⟩

/-- A case whose setup fails and whose single step would pass. -/
def tcC1 : TestCase :=
  ⟨"tc1", some (CreateAction "setup.sh" ""), none, "Pass", "NotTested",
    [⟨"st1", "Pass", "NotTested", some (CreateAction "step.sh" "")⟩], ""⟩

/-- C1 at its failing input: the setup fails and the abort path marks the
step NotTested, but `Execute` then still runs the step — the runner trace
contains the step script and the step status ends up overwritten to Pass,
not NotTested. -/
theorem case_setup_fail_still_runs_steps :
    ∃ out tr, tcC1.Execute exSetupFails = some (out, tr) ∧
      out.Status = "Fail" ∧
      out.Steps.map TestStep.Status = ["Pass"] ∧
      tr = [("setup.sh", ""), ("step.sh", "")] :=
  ⟨_, _, rfl, rfl, rfl, rfl⟩

/-- A case with a passing executable setup and an executable cleanup. -/
def tcC4 : TestCase :=
  ⟨"tc4", some (CreateAction "su.sh" ""), some (CreateAction "cl.sh" ""),
    "Pass", "NotTested", [], ""⟩

/-- C4 at its failing input: in the cleanup phase the code executes the
*setup* action object — the runner is invoked twice with the setup script
and never with the cleanup script, and the executable cleanup action still
carries result NotTested afterwards. -/
theorem case_cleanup_phase_runs_setup_action :
    ∃ out tr, tcC4.Execute exSetupFails = some (out, tr) ∧
      tr = [("su.sh", ""), ("su.sh", "")] ∧
      out.Cleanup.map Action.IsExecutable = some true ∧
      out.Cleanup.map Action.Result = some "NotTested" :=
  ⟨_, _, rfl, rfl, rfl, rfl⟩

/-- A set whose setup fails, with one case holding one passing step, and an
executable set cleanup. -/
def setC5 : TestSet :=
  ⟨"set5", "", none, some (CreateAction "setup.sh" ""),
    some (CreateAction "scl.sh" ""),
    [⟨"c", none, none, "Pass", "NotTested",
      [⟨"st1", "Pass", "NotTested", some (CreateAction "step.sh" "")⟩], ""⟩]⟩

/-- C5 at its failing input: after the set setup fails the cases are still
executed — the case's step ends with status Pass, not NotTested, and the
trace shows the step script ran (the cleanup does run, as claimed). -/
theorem set_setup_fail_still_runs_cases :
    ∃ out tr, setC5.Execute exSetupFails = some (out, tr) ∧
      (out.Cases.map fun c => c.Steps.map TestStep.Status) = [["Pass"]] ∧
      tr = [("setup.sh", ""), ("step.sh", ""), ("scl.sh", "")] :=
  ⟨_, _, rfl, rfl, rfl⟩

end Atf
